import Mathlib

/-!
Verification development for the plan-creator extension: the review-session
coordinator (tool `create_plan`), the ephemeral plan review HTTP server
(`startPlanServer`), the markdown artifact renderer (`planToMarkdown`), and
the JSON extraction step of the plan generator (`generatePlan`).

Strings from the source are modelled as lists of characters (`Str`), so that
prefix and concatenation reasoning is purely structural.  JavaScript runtime
values flowing through `JSON.parse` are modelled by the inductive `Json`.
Wall-clock instants are integers in milliseconds; the idle timeout
configuration value is in seconds, multiplied by 1000 exactly where the
source does.  Single-threaded JavaScript callback scheduling is modelled by
quantifying over the order in which callbacks run: relative firing times
collapse to an interleaving order.
-/

/-- Character-list strings, the string representation used throughout. -/
abbrev Str := List Char

/-- Boolean check that the second list starts with the first list. -/
def begins : Str → Str → Bool
  | [], _ => true
  | _ :: _, [] => false
  | a :: as, b :: bs => a == b && begins as bs

-- ===== Data model (source: interfaces PlanPhase, ImplementationPlan,
-- PlanReviewResult) =====

/-- Success criteria of one phase (source: `PlanPhase.successCriteria`). -/
structure SuccessCriteria where
  automated : List Str
  manual : List Str
  deriving DecidableEq

/-- One plan phase (source: interface `PlanPhase`). -/
structure PlanPhase where
  number : Nat
  name : Str
  description : Str
  tasks : List Str
  successCriteria : SuccessCriteria
  implementationNotes : Option Str
  deriving DecidableEq

/-- Testing strategy block (source: `ImplementationPlan.testingStrategy`). -/
structure TestingStrategy where
  unit : List Str
  integration : List Str
  manual : List Str
  deriving DecidableEq

/-- The generated proposal (source: interface `ImplementationPlan`). -/
structure ImplementationPlan where
  title : Str
  overview : Str
  currentState : Option Str
  desiredEndState : Option Str
  outOfScope : Option (List Str)
  phases : List PlanPhase
  testingStrategy : Option TestingStrategy
  references : Option (List Str)
  deriving DecidableEq

/-- The three decision values of the TypeScript union type. -/
inductive DecisionKind where
  | approve
  | modify
  | reject
  deriving DecidableEq

/-- The reviewer decision (source: interface `PlanReviewResult`).  The
TypeScript type declares `selectedPhases: number[]`, but the value arrives
from `JSON.parse` at runtime, so the field may be absent; `none` models an
absent (undefined or null, hence falsy) field and `some xs` a present array,
which in JavaScript is truthy even when empty.  The source distinguishes
exactly these two cases through `review?.selectedPhases || ...`. -/
structure PlanReviewResult where
  decision : DecisionKind
  selectedPhases : Option (List Nat)
  priority : Str
  approach : Str
  requirements : List Str
  constraints : List Str
  notes : Str
  deriving DecidableEq

-- ===== Idle timer (source: startPlanServer, resetTimeout and the GET and
-- heartbeat handlers) =====

/-- Idle timer state of one server instance: `lastActivity` is the variable
of the same name, `deadline` is the instant at which the pending
`setTimeout(onCancel, timeout * 1000)` callback would fire. -/
structure IdleTimerState where
  lastActivity : Int
  deadline : Int
  deriving DecidableEq

/-- Source `resetTimeout`: records the current time and replaces the pending
timer with a fresh one for the full configured timeout. -/
def resetTimeout (timeoutSec : Int) (now : Int) (_st : IdleTimerState) :
    IdleTimerState :=
  { lastActivity := now, deadline := now + timeoutSec * 1000 }

/-- Every GET request runs `resetTimeout()` before dispatching on the path
(source: the `req.method === "GET"` branch). -/
def handleGetTimer (timeoutSec : Int) (now : Int) (st : IdleTimerState) :
    IdleTimerState :=
  resetTimeout timeoutSec now st

/-- The `remaining` field of the heartbeat response.  The heartbeat handler
runs after the GET-branch `resetTimeout()` and calls `resetTimeout()` once
more, so `lastActivity` equals the current time when the response is
computed: `Math.max(0, timeout - Math.floor((Date.now() - lastActivity) /
1000))`. -/
def heartbeatRemaining (timeoutSec : Int) (now : Int) (st : IdleTimerState) :
    Int :=
  let st1 := resetTimeout timeoutSec now (handleGetTimer timeoutSec now st)
  max 0 (timeoutSec - (now - st1.lastActivity) / 1000)

-- ===== JavaScript runtime values =====

/-- Values produced by `JSON.parse`. -/
inductive Json where
  | null
  | bool (b : Bool)
  | num (n : Int)
  | str (s : Str)
  | arr (elems : List Json)
  | obj (fields : List (Str × Json))

/-- JavaScript truthiness of a parsed JSON value. -/
def truthy : Json → Bool
  | Json.null => false
  | Json.bool b => b
  | Json.num n => n != 0
  | Json.str s => !s.isEmpty
  | Json.arr _ => true
  | Json.obj _ => true

/-- Property access `v.key` on a parsed JSON value: `none` models the
JavaScript `undefined` result (non-object receiver or absent key; object
keys are assumed unique, as produced by `JSON.parse`). -/
def getField (j : Json) (key : Str) : Option Json :=
  match j with
  | Json.obj fields => (fields.find? (fun kv => kv.1 == key)).map Prod.snd
  | _ => none

-- ===== POST handler traces (source: startPlanServer, the /submit and
-- /cancel branches) =====

/-- Response bodies the POST handlers send (source sends serialized JSON:
success is the object with field success set to true, invalidJson the object
with field error set to the string Invalid JSON). -/
inductive RespBody where
  | success
  | invalidJson
  deriving DecidableEq

/-- Grace delay in milliseconds between the HTTP acknowledgement and the
resolution callback (source: the literal 500 in both `setTimeout` calls). -/
def graceDelayMs : Nat := 500

/-- Observable actions of a POST handler, listed in execution order. -/
inductive SrvAction where
  | clearTimer
  | respond (status : Nat) (body : RespBody)
  | delayedSubmit (delayMs : Nat) (payload : Json)
  | delayedCancel (delayMs : Nat)

/-- Source `/submit` branch.  The request body has been fully received; the
argument is the result of `JSON.parse(body)`, with `none` for a parse
exception.  On success the handler clears the idle timer (`clearTimeout` is
a no-op when no timer is pending), acknowledges with status 200, and
schedules `onSubmit(result)` after the grace delay; on a parse exception it
responds 400 and does nothing else. -/
def handleSubmitPost (parsed : Option Json) : List SrvAction :=
  match parsed with
  | some result =>
      [SrvAction.clearTimer, SrvAction.respond 200 RespBody.success,
       SrvAction.delayedSubmit graceDelayMs result]
  | none => [SrvAction.respond 400 RespBody.invalidJson]

/-- Source `/cancel` branch: clears the idle timer, acknowledges with status
200, and schedules `onCancel()` after the grace delay. -/
def handleCancelPost : List SrvAction :=
  [SrvAction.clearTimer, SrvAction.respond 200 RespBody.success,
   SrvAction.delayedCancel graceDelayMs]

-- ===== Artifact path (source: generatePlanId and the filename expression
-- in finish) =====

/-- JavaScript regex whitespace class, restricted to its ASCII members. -/
def jsWs (c : Char) : Bool :=
  c == ' ' || c == '\t' || c == '\n' || c == '\r' || c == '\x0b' || c == '\x0c'

/-- Characters the slug filter keeps: the class of lowercase ASCII letters,
digits, and dash of the second `replace` in the filename expression. -/
def isSlugChar (c : Char) : Bool :=
  ('a' ≤ c && c ≤ 'z') || ('0' ≤ c && c ≤ '9') || c == '-'

/-- Replacement of every maximal whitespace run by a single dash, the first
`replace` of the filename expression.  The boolean argument records whether
the previous character was whitespace. -/
def collapseWsAux (prevWs : Bool) : Str → Str
  | [] => []
  | c :: rest =>
      if jsWs c then
        if prevWs then collapseWsAux true rest
        else '-' :: collapseWsAux true rest
      else c :: collapseWsAux false rest

/-- Source filename slug: `plan.title.toLowerCase().replace(whitespace runs,
dash).replace(non slug characters, empty)`. -/
def slugify (title : Str) : Str :=
  (collapseWsAux false (title.map Char.toLower)).filter isSlugChar

/-- Source `generatePlanId`: the ISO date part, a dash, and the time part
with colons removed.  The two date components are parameters because `Date`
formatting is a platform service. -/
def generatePlanId (dateIso timeStr : Str) : Str :=
  dateIso ++ "-".toList ++ timeStr.filter (fun c => !(c == ':'))

/-- The artifact filename built in `finish`:
`planId-slugifiedTitle.md`. -/
def artifactFilename (planId : Str) (title : Str) : Str :=
  planId ++ "-".toList ++ slugify title ++ ".md".toList

-- ===== Effective phase selection (source: line `review?.selectedPhases ||
-- plan.phases.map((p) => p.number)` in planToMarkdown and finish) =====

/-- The effective phase selection.  The argument is the runtime value of
`review?.selectedPhases`: `none` when the review is absent or the field is
undefined or null (falsy), `some xs` when an array is present.  A JavaScript
array is truthy even when empty, so `some []` yields `[]`, not the full
phase list. -/
def effectiveSelected (sel : Option (List Nat))
    (plan : ImplementationPlan) : List Nat :=
  match sel with
  | some xs => xs
  | none => plan.phases.map PlanPhase.number

/-- The selected-phase summary the coordinator builds on the approval path
(source: `finish`, the `phaseSummary` constant): selected phases of the
plan, each as `number. name`. -/
def phaseSummaryLines (plan : ImplementationPlan)
    (review : PlanReviewResult) : List Str :=
  let sel := effectiveSelected review.selectedPhases plan
  (plan.phases.filter (fun p => sel.contains p.number)).map
    (fun p => (toString p.number).toList ++ ". ".toList ++ p.name)

-- ===== Coordinator one-shot resolution (source: execute in the create_plan
-- tool, the resolved flag, cleanup and finish) =====

/-- Whether `finish` takes the artifact-writing branch: the guard is
`!review || review.decision === "reject"`. -/
def writesArtifact (review : Option PlanReviewResult) : Bool :=
  match review with
  | none => false
  | some r =>
      match r.decision with
      | DecisionKind.reject => false
      | _ => true

/-- The four termination sources of one review session.  Submission carries
the decision payload; cancel, idle timeout, and the external abort signal
all reach `finish` as `finish(null)`. -/
inductive TermEvent where
  | submit (review : PlanReviewResult)
  | cancel
  | idle
  | abortSignal
  deriving DecidableEq

/-- The `finish` argument produced by each termination source. -/
def payloadOf : TermEvent → Option PlanReviewResult
  | TermEvent.submit r => some r
  | _ => none

/-- Coordinator state for the review-session promise of `execute`.
`resolved` is the one-shot guard variable; `serverOpen` tracks the server
handle (`cleanup` closes it and clears its timers); `fires` counts
deliveries to the promise `resolve` callback; `firstPayload` is the `finish`
argument of the delivery; `teardowns` counts `cleanup` runs and
`artifactWrites` counts `writeFileSync` calls. -/
structure CoordState where
  resolved : Bool
  serverOpen : Bool
  fires : Nat
  firstPayload : Option (Option PlanReviewResult)
  teardowns : Nat
  artifactWrites : Nat
  deriving DecidableEq

/-- Coordinator state right after `startPlanServer` resolves. -/
def initCoord : CoordState :=
  { resolved := false, serverOpen := true, fires := 0, firstPayload := none,
    teardowns := 0, artifactWrites := 0 }

/-- Source `finish(review)` driven by one termination source.  The body runs
synchronously on the single JavaScript thread: the guard check, the flag
write, `cleanup()`, the optional artifact write, and `resolve(...)` are one
atomic step. -/
def fireEvent (st : CoordState) (e : TermEvent) : CoordState :=
  if st.resolved then st
  else
    { resolved := true
      serverOpen := false
      fires := st.fires + 1
      firstPayload := some (payloadOf e)
      teardowns := st.teardowns + 1
      artifactWrites :=
        st.artifactWrites + (if writesArtifact (payloadOf e) then 1 else 0) }

/-- Termination sources delivered to `finish` in some interleaving order. -/
def runEvents (st : CoordState) (es : List TermEvent) : CoordState :=
  es.foldl fireEvent st

-- ===== Launch failure path (source: the openUrl catch branch of execute)
-- =====

/-- Status field of the tool result details (`PlanDetails.status`). -/
inductive RunStatus where
  | pending
  | approved
  | rejected
  deriving DecidableEq

/-- The structured result value `execute` resolves with. -/
structure ExecResult where
  status : RunStatus
  plan : ImplementationPlan
  message : Str
  deriving DecidableEq

/-- Source catch branch around `openUrl`: `cleanup()` closes the server,
then the promise is resolved with a pending-status result carrying the plan
and the launch error message.  The `resolved` guard flag is not written on
this path. -/
def launchFailureStep (st : CoordState) (plan : ImplementationPlan)
    (msg : Str) : CoordState × ExecResult :=
  ({ st with serverOpen := false, teardowns := st.teardowns + 1,
             fires := st.fires + 1 },
   { status := RunStatus.pending, plan := plan,
     message := "Failed to open browser: ".toList ++ msg })

-- ===== Artifact renderer (source: planToMarkdown) =====

/-- Inclusion marker of a phase header, with the exact characters the
source file stores (a check-mark emoji whose bytes were mangled once by an
encoding round-trip). -/
def includedMark : Str := "âœ…".toList

/-- Exclusion marker of a phase header, same encoding remark. -/
def excludedMark : Str := "â­ï¸ Skipped".toList

/-- Status line of the review header block, same encoding remark on the
leading emoji of each alternative. -/
def statusLineOf (r : PlanReviewResult) : Str :=
  "> **Status:** ".toList ++
    (match r.decision with
     | DecisionKind.approve => "âœ… Approved".toList
     | DecisionKind.modify => "ðŸ”„ Approved with modifications".toList
     | DecisionKind.reject => "âŒ Rejected".toList)

/-- Title line and blank line. -/
def titleSection (plan : ImplementationPlan) : List Str :=
  ["# ".toList ++ plan.title, []]

/-- Review status block, present only when a review was passed. -/
def statusSection : Option PlanReviewResult → List Str
  | none => []
  | some r =>
      [statusLineOf r,
       "> **Priority:** ".toList ++ r.priority,
       "> **Approach:** ".toList ++ r.approach,
       []]

/-- Overview block. -/
def overviewSection (plan : ImplementationPlan) : List Str :=
  ["## Overview".toList, [], plan.overview, []]

/-- Optional free-text block with a header, used for the current state and
desired end state sections. -/
def optTextSection (header : String) : Option Str → List Str
  | none => []
  | some s => [header.toList, [], s, []]

/-- Bullet list item. -/
def bulletLine (s : Str) : Str := "- ".toList ++ s

/-- Out-of-scope block, present when the list exists and is nonempty. -/
def outOfScopeSection : Option (List Str) → List Str
  | none => []
  | some items =>
      if items.length > 0 then
        ["## Out of Scope".toList, []] ++ items.map bulletLine ++ [[]]
      else []

/-- Unchecked checklist item, used for tasks and success criteria. -/
def taskLine (t : Str) : Str := "- [ ] ".toList ++ t

/-- Phase header line: `### Phase number: name marker`. -/
def phaseHeaderLine (p : PlanPhase) (included : Bool) : Str :=
  "### Phase ".toList ++ (toString p.number).toList ++ ": ".toList ++
    p.name ++ " ".toList ++ (if included then includedMark else excludedMark)

/-- Stub body of an excluded phase. -/
def excludedStubLine : Str :=
  "*This phase was excluded from the implementation scope.*".toList

/-- Lines pushed for one phase by the loop body of `planToMarkdown`. -/
def renderPhaseBlock (sel : List Nat) (p : PlanPhase) : List Str :=
  [phaseHeaderLine p (sel.contains p.number), []] ++
  (if sel.contains p.number then
    [p.description, []] ++
    (if p.tasks.length > 0 then
      "**Tasks:**".toList :: p.tasks.map taskLine ++ [[]]
     else []) ++
    ["**Success Criteria:**".toList, []] ++
    (if p.successCriteria.automated.length > 0 then
      "*Automated:*".toList :: p.successCriteria.automated.map taskLine
     else []) ++
    (if p.successCriteria.manual.length > 0 then
      [] :: "*Manual:*".toList :: p.successCriteria.manual.map taskLine
     else []) ++
    [[]] ++
    (match p.implementationNotes with
     | some n => ["> **Implementation Note:** ".toList ++ n, []]
     | none => []) ++
    ["---".toList, []]
  else
    [excludedStubLine, []])

/-- Implementation phases block: the header and one block per phase, in
phase list order. -/
def phasesSection (plan : ImplementationPlan) (sel : List Nat) : List Str :=
  ["## Implementation Phases".toList, []] ++
    plan.phases.flatMap (renderPhaseBlock sel)

/-- One subsection of the testing strategy block. -/
def testingSubsection (header : String) (items : List Str) : List Str :=
  if items.length > 0 then header.toList :: items.map bulletLine ++ [[]]
  else []

/-- Testing strategy block. -/
def testingSection : Option TestingStrategy → List Str
  | none => []
  | some ts =>
      ["## Testing Strategy".toList, []] ++
      testingSubsection "### Unit Tests" ts.unit ++
      testingSubsection "### Integration Tests" ts.integration ++
      testingSubsection "### Manual Testing" ts.manual

/-- Headed bullet list block, present when the list is nonempty; used for
the requirements, constraints, and references sections. -/
def listSection (header : String) (items : List Str) : List Str :=
  if items.length > 0 then
    [header.toList, []] ++ items.map bulletLine ++ [[]]
  else []

/-- Additional requirements block of the review. -/
def requirementsSection : Option PlanReviewResult → List Str
  | none => []
  | some r => listSection "## Additional Requirements" r.requirements

/-- Constraints block of the review. -/
def constraintsSection : Option PlanReviewResult → List Str
  | none => []
  | some r => listSection "## Constraints" r.constraints

/-- User notes block, present when the notes string is truthy, that is
nonempty. -/
def notesSection : Option PlanReviewResult → List Str
  | none => []
  | some r =>
      if r.notes.isEmpty then []
      else ["## User Notes".toList, [], r.notes, []]

/-- References block. -/
def referencesSection (plan : ImplementationPlan) : List Str :=
  match plan.references with
  | none => []
  | some refs => listSection "## References" refs

/-- Footer: rule and generation timestamp.  The timestamp string is a
parameter because `Date` formatting is a platform service. -/
def footerSection (nowIso : Str) : List Str :=
  ["---".toList, "*Generated: ".toList ++ nowIso ++ "*".toList]

/-- Source `planToMarkdown`: the full artifact document as its list of
pushed lines, in push order.  The selection passed to the phases block is
the `selectedPhases` constant of the source, computed through
`effectiveSelected`. -/
def planToMarkdown (plan : ImplementationPlan)
    (review : Option PlanReviewResult) (nowIso : Str) : List Str :=
  titleSection plan ++ statusSection review ++ overviewSection plan ++
  optTextSection "## Current State" plan.currentState ++
  optTextSection "## Desired End State" plan.desiredEndState ++
  outOfScopeSection plan.outOfScope ++
  phasesSection plan
    (effectiveSelected (review.bind PlanReviewResult.selectedPhases) plan) ++
  testingSection plan.testingStrategy ++
  requirementsSection review ++ constraintsSection review ++
  notesSection review ++
  referencesSection plan ++ footerSection nowIso

-- ===== Resolution and artifact write (source: finish) =====

/-- Terminal outcome `finish` resolves the tool promise with. -/
inductive FinishOutcome where
  | rejectedOut (review : Option PlanReviewResult)
  | approvedOut (review : PlanReviewResult) (path : Str)
  deriving DecidableEq

/-- Source `finish` on the typed decision value: the guard `!review ||
review.decision === "reject"` selects the rejected branch with no write;
otherwise exactly one artifact file is written at `artifactFilename` with
the rendered markdown, and the approved outcome is returned.  The second
component lists the `writeFileSync` calls as path and content lines. -/
def finishTyped (plan : ImplementationPlan) (planId nowIso : Str)
    (review : Option PlanReviewResult) :
    FinishOutcome × List (Str × List Str) :=
  match review with
  | none => (FinishOutcome.rejectedOut none, [])
  | some r =>
      if r.decision = DecisionKind.reject then
        (FinishOutcome.rejectedOut (some r), [])
      else
        (FinishOutcome.approvedOut r (artifactFilename planId plan.title),
         [(artifactFilename planId plan.title,
           planToMarkdown plan (some r) nowIso)])

/-- The test `review.decision === "reject"` on the raw parsed JSON value. -/
def isRejectDecision (review : Json) : Bool :=
  match getField review ("decision".toList) with
  | some (Json.str s) => s == "reject".toList
  | _ => false

/-- Source `finish` guard applied to the raw value `JSON.parse` produced,
as it arrives through `onSubmit`: it returns the paths of the artifact
files written.  The guard is `!review || review.decision === "reject"`,
JavaScript truthiness included; no shape validation happens before it. -/
def finishJsonWrites (plan : ImplementationPlan) (planId : Str)
    (review : Json) : List Str :=
  if !truthy review || isRejectDecision review then []
  else [artifactFilename planId plan.title]

-- ===== Generator JSON extraction (source: generatePlan, the block after
-- the `complete` call) =====

/-- Triple-backtick fence delimiter. -/
def fenceLit : Str := "```".toList

/-- Optional language tag after the opening fence. -/
def jsonTag : Str := "json".toList

/-- Consumption of a literal: if the first list is a prefix of the second,
the rest of the second list. -/
def dropLit : Str → Str → Option Str
  | [], cs => some cs
  | _ :: _, [] => none
  | a :: as, c :: cs => if a == c then dropLit as cs else none

/-- Lazy capture of the first fenced-block regex: the shortest run of
characters up to the next closing fence, or `none` when no closing fence
follows. -/
def scanToFence (acc : Str) : Str → Option Str
  | [] => none
  | c :: rest =>
      if (dropLit fenceLit (c :: rest)).isSome then some acc.reverse
      else scanToFence (c :: acc) rest

/-- Match of the fenced-block regex anchored at the start of the list:
opening fence, optional `json` tag, greedy whitespace, then the lazy
capture. -/
def matchFenceAt (cs : Str) : Option Str :=
  match dropLit fenceLit cs with
  | none => none
  | some rest =>
      let rest1 := match dropLit jsonTag rest with
        | some r => r
        | none => rest
      scanToFence [] (rest1.dropWhile jsWs)

/-- Leftmost match of the fenced-block regex: the capture group of the
first position where the whole pattern matches. -/
def findFenced : Str → Option Str
  | [] => none
  | c :: rest =>
      match matchFenceAt (c :: rest) with
      | some cap => some cap
      | none => findFenced rest

/-- JavaScript `trim`, restricted to the ASCII whitespace class. -/
def trimWs (cs : Str) : Str :=
  ((cs.dropWhile jsWs).reverse.dropWhile jsWs).reverse

/-- Match of the greedy outermost-object regex: from the first opening
brace to the last closing brace, provided the latter comes after the
former. -/
def findObjSpan (cs : Str) : Option Str :=
  match cs.findIdx? (fun c => c == '\x7b'),
        cs.reverse.findIdx? (fun c => c == '\x7d') with
  | some i, some jr =>
      let j := cs.length - 1 - jr
      if i < j then some ((cs.drop i).take (j - i + 1)) else none
  | _, _ => none

/-- Source extraction strategy of `generatePlan`: take the fenced capture
when present (else the whole text), trim it and try `JSON.parse`; on a
parse exception fall back to the outermost object span of the original
text and try `JSON.parse` on it; fail with `none` when that also throws or
no span exists.  The `parse` argument models the platform `JSON.parse`,
with `none` for an exception.  Every failure is caught: the function is
total and never propagates a throw. -/
def extractPlanJson (parse : Str → Option Json) (text : Str) : Option Json :=
  let jsonStr := match findFenced text with
    | some cap => cap
    | none => text
  match parse (trimWs jsonStr) with
  | some v => some v
  | none =>
      match findObjSpan text with
      | some span =>
          match parse span with
          | some v => some v
          | none => none
      | none => none

-- ===== Fixtures for witnesses and counterexamples =====

/-- Sample phase 1 with all optional parts populated. -/
def samplePhase1 : PlanPhase :=
  { number := 1, name := "Setup".toList,
    description := "Create the module".toList,
    tasks := ["Add file".toList],
    successCriteria := { automated := ["Run tests".toList],
                         manual := ["Check UI".toList] },
    implementationNotes := some "Pause after".toList }

/-- Sample phase 2 with all optional parts empty. -/
def samplePhase2 : PlanPhase :=
  { number := 2, name := "Build".toList,
    description := "Implement feature".toList,
    tasks := [],
    successCriteria := { automated := [], manual := [] },
    implementationNotes := none }

/-- Sample proposal with two phases. -/
def samplePlan : ImplementationPlan :=
  { title := "Add rate limiting".toList,
    overview := "Limit requests".toList,
    currentState := none, desiredEndState := none, outOfScope := none,
    phases := [samplePhase1, samplePhase2],
    testingStrategy := none, references := none }

/-- Sample approving review selecting both phases. -/
def sampleReview : PlanReviewResult :=
  { decision := DecisionKind.approve, selectedPhases := some [1, 2],
    priority := "medium".toList, approach := "balanced".toList,
    requirements := [], constraints := [], notes := [] }

/-- Sample approving review whose selected-phase array is present but
empty. -/
def emptySelReview : PlanReviewResult :=
  { sampleReview with selectedPhases := some [] }

/-- Sample approving review selecting only phase 1. -/
def phase1Review : PlanReviewResult :=
  { sampleReview with selectedPhases := some [1] }

/-- Detector for the phase header lines of the rendered document: a line
counts as a phase block header exactly when it starts with the ten
characters `### Phase` and a space, the fixed text of the header template.
-/
def phaseMarker : Str := "### Phase ".toList

/-- Boolean phase-header test on one rendered line. -/
def isPhaseHeader (l : Str) : Bool := begins phaseMarker l

/-- Opening brace character, for building test strings. -/
def obOpen : Char := '\x7b'

/-- Closing brace character. -/
def obClose : Char := '\x7d'

/-- Concrete structured payload text: a one-field object. -/
def payloadText : Str := obOpen :: "\"title\":1".toList ++ [obClose]

/-- Concrete parsed value of `payloadText`. -/
def sampleJson : Json := Json.obj [("title".toList, Json.num 1)]

/-- Concrete model of the platform `JSON.parse` for the witness inputs: it
succeeds exactly on `payloadText`. -/
def sampleParse : Str → Option Json :=
  fun s => if s = payloadText then some sampleJson else none

/-- Response text with the payload inside an explicit fenced block. -/
def fencedText : Str :=
  "Intro ```json ".toList ++ payloadText ++ " ``` outro".toList

/-- Response text with only a bare structured span amid prose. -/
def bareText : Str := "Answer: ".toList ++ payloadText ++ " done".toList

/-- Response text with no structured content at all. -/
def noJsonText : Str := "Nothing here".toList

/-- Parsed body whose decision field is the string approve. -/
def approveJson : Json :=
  Json.obj [("decision".toList, Json.str "approve".toList)]

-- ===== Helper lemmas =====

/-- A `finish` call on an already resolved session is a no-op. -/
theorem fireEvent_of_resolved (st : CoordState) (e : TermEvent)
    (h : st.resolved = true) : fireEvent st e = st := by
  simp [fireEvent, h]

/-- A resolved session absorbs any further sequence of termination
events. -/
theorem runEvents_of_resolved (st : CoordState) (es : List TermEvent)
    (h : st.resolved = true) : runEvents st es = st := by
  induction es with
  | nil => rfl
  | cons e es ih =>
      show List.foldl fireEvent (fireEvent st e) es = st
      rw [fireEvent_of_resolved st e h]
      exact ih

/-- The first termination event resolves the session and fixes the whole
final state. -/
theorem fireEvent_init (e : TermEvent) :
    fireEvent initCoord e =
      { resolved := true, serverOpen := false, fires := 1,
        firstPayload := some (payloadOf e), teardowns := 1,
        artifactWrites := if writesArtifact (payloadOf e) then 1 else 0 } := by
  simp [fireEvent, initCoord]

-- ===== Line classification lemmas =====

/-- Empty lines are not phase headers. -/
theorem phh_nil : isPhaseHeader [] = false := rfl

/-- The title line is not a phase header. -/
theorem phh_title (t : Str) : isPhaseHeader ("# ".toList ++ t) = false := rfl

/-- Bullet lines are not phase headers. -/
theorem phh_bullet (s : Str) : isPhaseHeader (bulletLine s) = false := rfl

/-- Checklist lines are not phase headers. -/
theorem phh_task (s : Str) : isPhaseHeader (taskLine s) = false := rfl

/-- The status line is not a phase header. -/
theorem phh_status (r : PlanReviewResult) :
    isPhaseHeader (statusLineOf r) = false := rfl

/-- The priority line is not a phase header. -/
theorem phh_priority (s : Str) :
    isPhaseHeader ("> **Priority:** ".toList ++ s) = false := rfl

/-- The approach line is not a phase header. -/
theorem phh_approach (s : Str) :
    isPhaseHeader ("> **Approach:** ".toList ++ s) = false := rfl

/-- Implementation note lines are not phase headers. -/
theorem phh_note (n : Str) :
    isPhaseHeader ("> **Implementation Note:** ".toList ++ n) = false := rfl

/-- The footer timestamp line is not a phase header. -/
theorem phh_footer (ts : Str) :
    isPhaseHeader ("*Generated: ".toList ++ ts ++ "*".toList) = false := rfl

/-- Phase header lines are phase headers. -/
theorem phh_header (p : PlanPhase) (b : Bool) :
    isPhaseHeader (phaseHeaderLine p b) = true := rfl

/-- Overview header literal. -/
theorem phh_h2ov : isPhaseHeader ("## Overview".toList) = false := rfl

/-- Current state header literal. -/
theorem phh_h2cs : isPhaseHeader ("## Current State".toList) = false := rfl

/-- Desired end state header literal. -/
theorem phh_h2de :
    isPhaseHeader ("## Desired End State".toList) = false := rfl

/-- Out of scope header literal. -/
theorem phh_h2oos : isPhaseHeader ("## Out of Scope".toList) = false := rfl

/-- Implementation phases header literal. -/
theorem phh_h2ip :
    isPhaseHeader ("## Implementation Phases".toList) = false := rfl

/-- Testing strategy header literal. -/
theorem phh_h2ts :
    isPhaseHeader ("## Testing Strategy".toList) = false := rfl

/-- Unit tests header literal. -/
theorem phh_h3ut : isPhaseHeader ("### Unit Tests".toList) = false := rfl

/-- Integration tests header literal. -/
theorem phh_h3it :
    isPhaseHeader ("### Integration Tests".toList) = false := rfl

/-- Manual testing header literal. -/
theorem phh_h3mt : isPhaseHeader ("### Manual Testing".toList) = false := rfl

/-- Additional requirements header literal. -/
theorem phh_h2ar :
    isPhaseHeader ("## Additional Requirements".toList) = false := rfl

/-- Constraints header literal. -/
theorem phh_h2co : isPhaseHeader ("## Constraints".toList) = false := rfl

/-- User notes header literal. -/
theorem phh_h2un : isPhaseHeader ("## User Notes".toList) = false := rfl

/-- References header literal. -/
theorem phh_h2re : isPhaseHeader ("## References".toList) = false := rfl

/-- Horizontal rule literal. -/
theorem phh_hr : isPhaseHeader ("---".toList) = false := rfl

/-- Tasks label literal. -/
theorem phh_tk : isPhaseHeader ("**Tasks:**".toList) = false := rfl

/-- Success criteria label literal. -/
theorem phh_sc :
    isPhaseHeader ("**Success Criteria:**".toList) = false := rfl

/-- Automated label literal. -/
theorem phh_au : isPhaseHeader ("*Automated:*".toList) = false := rfl

/-- Manual label literal. -/
theorem phh_ma : isPhaseHeader ("*Manual:*".toList) = false := rfl

/-- Excluded stub literal. -/
theorem phh_stub : isPhaseHeader excludedStubLine = false := rfl

-- ===== Section filter lemmas =====

/-- Reduction of a conditional whose condition evaluated to false. -/
theorem iteFT {α : Sort _} (a b : α) : (if (false = true) then a else b) = b
  := rfl

/-- Reduction of a conditional whose condition evaluated to true. -/
theorem iteTT {α : Sort _} (a b : α) : (if (true = true) then a else b) = a
  := rfl

/-- Mapped content lines contribute no phase headers. -/
theorem filterPH_map (f : Str → Str)
    (hf : ∀ s, isPhaseHeader (f s) = false) (items : List Str) :
    (items.map f).filter isPhaseHeader = [] := by
  induction items with
  | nil => rfl
  | cons a as ih =>
      simp only [List.map_cons, List.filter_cons, hf, iteFT, ih]

/-- The title section has no phase headers. -/
theorem filterPH_titleSection (plan : ImplementationPlan) :
    (titleSection plan).filter isPhaseHeader = [] := by
  simp only [titleSection, List.filter_cons, phh_title, phh_nil, iteFT,
    List.filter_nil]

/-- The status section has no phase headers. -/
theorem filterPH_statusSection (review : Option PlanReviewResult) :
    (statusSection review).filter isPhaseHeader = [] := by
  cases review with
  | none => rfl
  | some r =>
      simp only [statusSection, List.filter_cons, phh_status, phh_priority,
        phh_approach, phh_nil, iteFT, List.filter_nil]

/-- The overview section has no phase headers when the overview text line
is none. -/
theorem filterPH_overviewSection (plan : ImplementationPlan)
    (hov : isPhaseHeader plan.overview = false) :
    (overviewSection plan).filter isPhaseHeader = [] := by
  simp only [overviewSection, List.filter_cons, phh_h2ov, hov, phh_nil,
    iteFT, List.filter_nil]

/-- Optional text sections have no phase headers when neither the header
nor the content line is one. -/
theorem filterPH_optTextSection (header : String) (o : Option Str)
    (hh : isPhaseHeader header.toList = false)
    (hc : ∀ s, o = some s → isPhaseHeader s = false) :
    (optTextSection header o).filter isPhaseHeader = [] := by
  cases o with
  | none => rfl
  | some s =>
      simp only [optTextSection, List.filter_cons, hh, hc s rfl, phh_nil,
        iteFT, List.filter_nil]

/-- Headed bullet list sections have no phase headers when the header is
not one. -/
theorem filterPH_listSection (header : String) (items : List Str)
    (hh : isPhaseHeader header.toList = false) :
    (listSection header items).filter isPhaseHeader = [] := by
  unfold listSection
  split
  · simp only [List.filter_append, List.filter_cons, hh, phh_nil, iteFT,
      List.filter_nil, filterPH_map bulletLine phh_bullet,
      List.nil_append, List.append_nil]
  · rfl

/-- The out of scope section has no phase headers. -/
theorem filterPH_outOfScopeSection (o : Option (List Str)) :
    (outOfScopeSection o).filter isPhaseHeader = [] := by
  cases o with
  | none => rfl
  | some items =>
      simp only [outOfScopeSection]
      split
      · simp only [List.filter_append, List.filter_cons, phh_h2oos,
          phh_nil, iteFT, List.filter_nil,
          filterPH_map bulletLine phh_bullet,
          List.nil_append, List.append_nil]
      · rfl

/-- Testing subsections have no phase headers when the header is not
one. -/
theorem filterPH_testingSubsection (header : String) (items : List Str)
    (hh : isPhaseHeader header.toList = false) :
    (testingSubsection header items).filter isPhaseHeader = [] := by
  unfold testingSubsection
  split
  · simp only [List.filter_append, List.filter_cons, hh, phh_nil, iteFT,
      List.filter_nil, filterPH_map bulletLine phh_bullet,
      List.nil_append, List.append_nil]
  · rfl

/-- The testing strategy section has no phase headers. -/
theorem filterPH_testingSection (o : Option TestingStrategy) :
    (testingSection o).filter isPhaseHeader = [] := by
  cases o with
  | none => rfl
  | some ts =>
      simp only [testingSection, List.filter_append, List.filter_cons,
        phh_h2ts, phh_nil, iteFT, List.filter_nil,
        filterPH_testingSubsection "### Unit Tests" ts.unit phh_h3ut,
        filterPH_testingSubsection "### Integration Tests" ts.integration
          phh_h3it,
        filterPH_testingSubsection "### Manual Testing" ts.manual phh_h3mt,
        List.nil_append, List.append_nil]

/-- The requirements section has no phase headers. -/
theorem filterPH_requirementsSection (review : Option PlanReviewResult) :
    (requirementsSection review).filter isPhaseHeader = [] := by
  cases review with
  | none => rfl
  | some r => exact filterPH_listSection _ _ phh_h2ar

/-- The constraints section has no phase headers. -/
theorem filterPH_constraintsSection (review : Option PlanReviewResult) :
    (constraintsSection review).filter isPhaseHeader = [] := by
  cases review with
  | none => rfl
  | some r => exact filterPH_listSection _ _ phh_h2co

/-- The user notes section has no phase headers when the notes line is
none. -/
theorem filterPH_notesSection (review : Option PlanReviewResult)
    (hn : ∀ r, review = some r → isPhaseHeader r.notes = false) :
    (notesSection review).filter isPhaseHeader = [] := by
  cases review with
  | none => rfl
  | some r =>
      simp only [notesSection]
      split
      · rfl
      · simp only [List.filter_cons, phh_h2un, hn r rfl, phh_nil, iteFT,
          List.filter_nil]

/-- The references section has no phase headers. -/
theorem filterPH_referencesSection (plan : ImplementationPlan) :
    (referencesSection plan).filter isPhaseHeader = [] := by
  unfold referencesSection
  split
  · rfl
  · exact filterPH_listSection _ _ phh_h2re

/-- The footer has no phase headers. -/
theorem filterPH_footerSection (ts : Str) :
    (footerSection ts).filter isPhaseHeader = [] := by
  simp only [footerSection, List.filter_cons, phh_hr, phh_footer, phh_nil,
    iteFT, List.filter_nil]

/-- One phase block contributes exactly its header line to the phase
header filter. -/
theorem filterPH_renderPhaseBlock (sel : List Nat) (p : PlanPhase)
    (hd : isPhaseHeader p.description = false) :
    (renderPhaseBlock sel p).filter isPhaseHeader =
      [phaseHeaderLine p (sel.contains p.number)] := by
  cases hC : sel.contains p.number with
  | false =>
      simp only [renderPhaseBlock, hC, iteFT, List.filter_append,
        List.filter_cons, phh_header, iteTT, if_true, phh_stub, phh_nil,
        List.filter_nil, List.nil_append, List.append_nil]
  | true =>
      cases hnote : p.implementationNotes with
      | none =>
          simp only [renderPhaseBlock, hC, hnote, iteTT, if_true,
            List.filter_append, List.filter_cons, phh_header, phh_nil,
            iteFT, hd, phh_tk, phh_sc, phh_au, phh_ma, phh_hr,
            List.filter_nil, filterPH_map taskLine phh_task,
            apply_ite (List.filter isPhaseHeader), ite_self,
            List.nil_append, List.append_nil]
      | some n =>
          simp only [renderPhaseBlock, hC, hnote, iteTT, if_true,
            List.filter_append, List.filter_cons, phh_header, phh_nil,
            iteFT, hd, phh_tk, phh_sc, phh_au, phh_ma, phh_hr, phh_note,
            List.filter_nil, filterPH_map taskLine phh_task,
            apply_ite (List.filter isPhaseHeader), ite_self,
            List.nil_append, List.append_nil]

/-- The concatenation of all phase blocks contributes exactly the header
lines, one per phase, in phase order. -/
theorem filterPH_flatMap (sel : List Nat) (phases : List PlanPhase)
    (hd : ∀ p ∈ phases, isPhaseHeader p.description = false) :
    (phases.flatMap (renderPhaseBlock sel)).filter isPhaseHeader =
      phases.map (fun p => phaseHeaderLine p (sel.contains p.number)) := by
  induction phases with
  | nil => rfl
  | cons p ps ih =>
      have hp : isPhaseHeader p.description = false :=
        hd p (List.mem_cons_self p ps)
      have hps : ∀ q ∈ ps, isPhaseHeader q.description = false :=
        fun q hq => hd q (List.mem_cons_of_mem p hq)
      show ((renderPhaseBlock sel p) ++
        ps.flatMap (renderPhaseBlock sel)).filter isPhaseHeader = _
      rw [List.filter_append, filterPH_renderPhaseBlock sel p hp, ih hps]
      rfl

/-- The phases section filter is exactly the list of header lines. -/
theorem filterPH_phasesSection (plan : ImplementationPlan) (sel : List Nat)
    (hd : ∀ p ∈ plan.phases, isPhaseHeader p.description = false) :
    (phasesSection plan sel).filter isPhaseHeader =
      plan.phases.map (fun p => phaseHeaderLine p (sel.contains p.number))
    := by
  unfold phasesSection
  rw [List.filter_append, filterPH_flatMap sel plan.phases hd]
  simp only [List.filter_cons, phh_h2ip, phh_nil, iteFT, List.filter_nil,
    List.nil_append]

-- ===== Phase block membership lemmas =====

/-- Lines of a phase block occur in the rendered document when the phase
belongs to the plan. -/
theorem mem_planToMarkdown_of_mem_block (plan : ImplementationPlan)
    (review : Option PlanReviewResult) (nowIso : Str) (p : PlanPhase)
    (hp : p ∈ plan.phases) (x : Str)
    (hx : x ∈ renderPhaseBlock
      (effectiveSelected (review.bind PlanReviewResult.selectedPhases) plan)
      p) :
    x ∈ planToMarkdown plan review nowIso := by
  have hx2 : x ∈ phasesSection plan
      (effectiveSelected (review.bind PlanReviewResult.selectedPhases)
        plan) := by
    unfold phasesSection
    exact List.mem_append_right _ (List.mem_flatMap.mpr ⟨p, hp, hx⟩)
  unfold planToMarkdown
  apply List.mem_append_left
  apply List.mem_append_left
  apply List.mem_append_left
  apply List.mem_append_left
  apply List.mem_append_left
  apply List.mem_append_left
  exact List.mem_append_right _ hx2

/-- The description occurs in the block of an included phase. -/
theorem desc_mem_block (sel : List Nat) (p : PlanPhase)
    (h : sel.contains p.number = true) :
    p.description ∈ renderPhaseBlock sel p := by
  unfold renderPhaseBlock
  rw [h, iteTT]
  apply List.mem_append_right
  apply List.mem_append_left
  apply List.mem_append_left
  apply List.mem_append_left
  apply List.mem_append_left
  apply List.mem_append_left
  apply List.mem_append_left
  exact List.mem_append_left _ (List.mem_cons_self _ _)

/-- Task checklist lines occur in the block of an included phase. -/
theorem task_mem_block (sel : List Nat) (p : PlanPhase) (t : Str)
    (h : sel.contains p.number = true) (ht : t ∈ p.tasks) :
    taskLine t ∈ renderPhaseBlock sel p := by
  have hlen : p.tasks.length > 0 :=
    List.length_pos.mpr (List.ne_nil_of_mem ht)
  unfold renderPhaseBlock
  rw [h, iteTT]
  apply List.mem_append_right
  apply List.mem_append_left
  apply List.mem_append_left
  apply List.mem_append_left
  apply List.mem_append_left
  apply List.mem_append_left
  apply List.mem_append_left
  apply List.mem_append_right
  rw [if_pos hlen]
  exact List.mem_cons_of_mem _
    (List.mem_append_left _ (List.mem_map_of_mem taskLine ht))

/-- Automated criteria lines occur in the block of an included phase. -/
theorem auto_mem_block (sel : List Nat) (p : PlanPhase) (c : Str)
    (h : sel.contains p.number = true)
    (hc : c ∈ p.successCriteria.automated) :
    taskLine c ∈ renderPhaseBlock sel p := by
  have hlen : p.successCriteria.automated.length > 0 :=
    List.length_pos.mpr (List.ne_nil_of_mem hc)
  unfold renderPhaseBlock
  rw [h, iteTT]
  apply List.mem_append_right
  apply List.mem_append_left
  apply List.mem_append_left
  apply List.mem_append_left
  apply List.mem_append_left
  apply List.mem_append_right
  rw [if_pos hlen]
  exact List.mem_cons_of_mem _ (List.mem_map_of_mem taskLine hc)

/-- Manual criteria lines occur in the block of an included phase. -/
theorem manual_mem_block (sel : List Nat) (p : PlanPhase) (c : Str)
    (h : sel.contains p.number = true)
    (hc : c ∈ p.successCriteria.manual) :
    taskLine c ∈ renderPhaseBlock sel p := by
  have hlen : p.successCriteria.manual.length > 0 :=
    List.length_pos.mpr (List.ne_nil_of_mem hc)
  unfold renderPhaseBlock
  rw [h, iteTT]
  apply List.mem_append_right
  apply List.mem_append_left
  apply List.mem_append_left
  apply List.mem_append_left
  apply List.mem_append_right
  rw [if_pos hlen]
  exact List.mem_cons_of_mem _
    (List.mem_cons_of_mem _ (List.mem_map_of_mem taskLine hc))

/-- The implementation note line occurs in the block of an included
phase. -/
theorem note_mem_block (sel : List Nat) (p : PlanPhase) (n : Str)
    (h : sel.contains p.number = true)
    (hn : p.implementationNotes = some n) :
    ("> **Implementation Note:** ".toList ++ n) ∈ renderPhaseBlock sel p
    := by
  unfold renderPhaseBlock
  rw [h, iteTT, hn]
  apply List.mem_append_right
  apply List.mem_append_left
  apply List.mem_append_right
  exact List.mem_cons_self _ _

/-- The excluded stub occurs in the block of an excluded phase. -/
theorem stub_mem_block (sel : List Nat) (p : PlanPhase)
    (h : sel.contains p.number = false) :
    excludedStubLine ∈ renderPhaseBlock sel p := by
  unfold renderPhaseBlock
  rw [h, iteFT]
  exact List.mem_append_right _ (List.mem_cons_self _ _)

-- ===== Claim theorems =====

/-- C1: for every interleaving of the four termination sources of one
review session, delivered to `finish` in any order (relative firing times
collapse to this order on the single JavaScript thread), the resolution
fires exactly once, with the payload of whichever source fired first;
teardown runs exactly once and the artifact write happens only as part of
that first call; a `finish` call on a resolved session changes nothing. -/
theorem c1_exactly_once_resolution (e0 : TermEvent) (es : List TermEvent) :
    (runEvents initCoord (e0 :: es)).fires = 1 ∧
    (runEvents initCoord (e0 :: es)).firstPayload = some (payloadOf e0) ∧
    (runEvents initCoord (e0 :: es)).teardowns = 1 ∧
    (runEvents initCoord (e0 :: es)).artifactWrites =
      (if writesArtifact (payloadOf e0) then 1 else 0) ∧
    (∀ st : CoordState, ∀ e : TermEvent,
      st.resolved = true → fireEvent st e = st) := by
  have hrun : runEvents initCoord (e0 :: es) = fireEvent initCoord e0 := by
    show List.foldl fireEvent (fireEvent initCoord e0) es =
      fireEvent initCoord e0
    exact runEvents_of_resolved _ es (by rw [fireEvent_init])
  refine ⟨?_, ?_, ?_, ?_, fireEvent_of_resolved⟩ <;>
    rw [hrun, fireEvent_init]

/-- Witness for C1 at a concrete interleaving: a cancel racing an idle
timeout resolves once, with the null payload of the cancel. -/
theorem c1_witness :
    (runEvents initCoord [TermEvent.cancel, TermEvent.idle]).fires = 1 ∧
    (runEvents initCoord [TermEvent.cancel, TermEvent.idle]).firstPayload =
      some none := by
  have h := c1_exactly_once_resolution TermEvent.cancel [TermEvent.idle]
  exact ⟨h.1, h.2.1⟩

/-- C4 counterexample: on a launch failure the catch branch runs
`cleanup()`, which closes the server, so the session URL does not stay
reachable: starting from the freshly started server (`serverOpen = true`),
the state after the launch-failure step has `serverOpen = false`. -/
theorem c4_counterexample :
    initCoord.serverOpen = true ∧
    (launchFailureStep initCoord samplePlan
      "exit code 1".toList).1.serverOpen = false :=
  ⟨rfl, rfl⟩

/-- C4 amended: if launching the browser fails, the coordinator resolves
immediately to a pending-status result that is distinct from a user
rejection and still carries the proposal; however the server is closed by
`cleanup()` on this path, so the session URL is not kept reachable for a
retry.  The one-shot `resolved` flag is not written here. -/
theorem c4_launch_failure (st : CoordState) (plan : ImplementationPlan)
    (msg : Str) :
    (launchFailureStep st plan msg).2.status = RunStatus.pending ∧
    (launchFailureStep st plan msg).2.status ≠ RunStatus.rejected ∧
    (launchFailureStep st plan msg).2.plan = plan ∧
    (launchFailureStep st plan msg).2.message =
      "Failed to open browser: ".toList ++ msg ∧
    (launchFailureStep st plan msg).1.serverOpen = false ∧
    (launchFailureStep st plan msg).1.resolved = st.resolved :=
  ⟨rfl, fun h => RunStatus.noConfusion h, rfl, rfl, rfl, rfl⟩

/-- C5: every GET request resets the idle deadline to the request time
plus the full configured timeout, which is never earlier than the previous
deadline as long as the clock is monotone; the heartbeat `remaining` value
lies between 0 and the configured timeout. -/
theorem c5_get_extends_deadline (timeoutSec now : Int)
    (st : IdleTimerState)
    (hmono : st.lastActivity ≤ now)
    (hinv : st.deadline = st.lastActivity + timeoutSec * 1000)
    (hpos : 0 ≤ timeoutSec) :
    (handleGetTimer timeoutSec now st).deadline = now + timeoutSec * 1000 ∧
    st.deadline ≤ (handleGetTimer timeoutSec now st).deadline ∧
    0 ≤ heartbeatRemaining timeoutSec now st ∧
    heartbeatRemaining timeoutSec now st ≤ timeoutSec := by
  have h1 : (handleGetTimer timeoutSec now st).deadline =
      now + timeoutSec * 1000 := rfl
  have h2 : heartbeatRemaining timeoutSec now st = max 0 timeoutSec := by
    simp [heartbeatRemaining, resetTimeout, handleGetTimer]
  refine ⟨h1, ?_, ?_, ?_⟩
  · rw [h1, hinv]
    linarith
  · rw [h2]
    exact le_max_left 0 timeoutSec
  · rw [h2]
    exact max_le hpos le_rfl

/-- Witness for C5 at concrete times: previous activity at 1000 ms,
request at 5000 ms, 600 second timeout. -/
theorem c5_witness :
    ((⟨1000, 601000⟩ : IdleTimerState).lastActivity ≤ 5000) ∧
    ((⟨1000, 601000⟩ : IdleTimerState).deadline =
      (⟨1000, 601000⟩ : IdleTimerState).lastActivity + 600 * 1000) ∧
    ((0 : Int) ≤ 600) ∧
    (handleGetTimer 600 5000 ⟨1000, 601000⟩).deadline =
      5000 + 600 * 1000 ∧
    heartbeatRemaining 600 5000 ⟨1000, 601000⟩ ≤ 600 := by
  have h := c5_get_extends_deadline 600 5000 ⟨1000, 601000⟩
    (by decide) (by decide) (by decide)
  exact ⟨by decide, by decide, by decide, h.1, h.2.2.2⟩

/-- C6: both the parseable-submit handler and the cancel handler first
clear the idle timer, then send the success acknowledgement, and only then
schedule the resolution callback, separated by the 500 ms grace delay,
which is on the order of hundreds of milliseconds: the acknowledgement
strictly precedes resolution on both paths. -/
theorem c6_ack_before_resolution :
    (∀ v : Json, handleSubmitPost (some v) =
      [SrvAction.clearTimer, SrvAction.respond 200 RespBody.success,
       SrvAction.delayedSubmit graceDelayMs v]) ∧
    handleCancelPost =
      [SrvAction.clearTimer, SrvAction.respond 200 RespBody.success,
       SrvAction.delayedCancel graceDelayMs] ∧
    100 ≤ graceDelayMs ∧ graceDelayMs < 1000 :=
  ⟨fun _ => rfl, rfl, by decide, by decide⟩

/-- C7: a POST to the submit endpoint with an unparseable body gets a 400
response and nothing else happens: the resolution callback is not
scheduled and the idle timer is not touched, so the session stays
unresolved with its timer running; with a parseable body the handler sends
the success acknowledgement and schedules the asynchronous resolution with
the parsed decision. -/
theorem c7_submit_parse_errors :
    handleSubmitPost none = [SrvAction.respond 400 RespBody.invalidJson] ∧
    SrvAction.clearTimer ∉ handleSubmitPost none ∧
    (∀ d p, SrvAction.delayedSubmit d p ∉ handleSubmitPost none) ∧
    (∀ d, SrvAction.delayedCancel d ∉ handleSubmitPost none) ∧
    (∀ v : Json,
      SrvAction.respond 200 RespBody.success ∈ handleSubmitPost (some v) ∧
      SrvAction.delayedSubmit graceDelayMs v ∈ handleSubmitPost (some v)) := by
  refine ⟨rfl, ?_, ?_, ?_, ?_⟩ <;> simp [handleSubmitPost]

/-- C2 counterexample: on a two-phase plan, an approving Decision whose
`selectedPhases` array is present but empty does not yield the full phase
set: a JavaScript array is truthy even when empty, so the `||` fallback is
not taken.  Both phases are rendered as excluded (their headers carry the
excluded marker and the excluded stub appears), and the coordinator
summary lists no phases at all. -/
theorem c2_counterexample :
    effectiveSelected (some []) samplePlan = [] ∧
    samplePlan.phases.map PlanPhase.number = [1, 2] ∧
    (planToMarkdown samplePlan (some emptySelReview)
      "2025-05-05".toList).filter isPhaseHeader =
      [phaseHeaderLine samplePhase1 false,
       phaseHeaderLine samplePhase2 false] ∧
    phaseHeaderLine samplePhase1 false ≠ phaseHeaderLine samplePhase1 true ∧
    excludedStubLine ∈ planToMarkdown samplePlan (some emptySelReview)
      "2025-05-05".toList ∧
    phaseSummaryLines samplePlan emptySelReview = [] := by
  refine ⟨rfl, rfl, by decide, by decide, by decide, rfl⟩

/-- C2 amended: only an absent (undefined or null) `selectedPhases` field
is treated as the full phase set by coordinator and renderer; an empty
array is used as-is, so every phase is rendered as an excluded stub and
the returned summary lists no phases. -/
theorem c2_selected_phases_default :
    (∀ plan : ImplementationPlan,
      effectiveSelected none plan = plan.phases.map PlanPhase.number) ∧
    (∀ plan : ImplementationPlan, effectiveSelected (some []) plan = []) ∧
    (∀ p : PlanPhase, renderPhaseBlock [] p =
      [phaseHeaderLine p false, [], excludedStubLine, []]) ∧
    (∀ (plan : ImplementationPlan) (d : DecisionKind)
      (pr ap : Str) (rq cs : List Str) (nt : Str),
      phaseSummaryLines plan
        { decision := d, selectedPhases := some [], priority := pr,
          approach := ap, requirements := rq, constraints := cs,
          notes := nt } = []) := by
  refine ⟨fun plan => rfl, fun plan => rfl, fun p => rfl, ?_⟩
  intro plan d pr ap rq cs nt
  have h : plan.phases.filter
      (fun p => ([] : List Nat).contains p.number) = [] := by
    apply List.filter_eq_nil_iff.mpr
    intro a _
    simp
  show (plan.phases.filter
    (fun p => ([] : List Nat).contains p.number)).map
      (fun p => (toString p.number).toList ++ ". ".toList ++ p.name) = []
  rw [h]
  rfl

/-- C3: for any proposal and selection, the rendered artifact contains
exactly one phase header per phase of the plan, in phase order, labeled
included or excluded according to membership of the phase number in the
effective selection; each included phase contributes its description, its
tasks and success criteria as unchecked checklist items and its optional
implementation note, and each excluded phase contributes the explicit
excluded stub — no phase is dropped.  The hypotheses state that the
free-text fields do not themselves start with the phase header template
text. -/
theorem c3_phase_blocks (plan : ImplementationPlan)
    (review : Option PlanReviewResult) (nowIso : Str)
    (hov : isPhaseHeader plan.overview = false)
    (hcs : ∀ s, plan.currentState = some s → isPhaseHeader s = false)
    (hde : ∀ s, plan.desiredEndState = some s → isPhaseHeader s = false)
    (hph : ∀ p ∈ plan.phases, isPhaseHeader p.description = false)
    (hnt : ∀ r, review = some r → isPhaseHeader r.notes = false) :
    (planToMarkdown plan review nowIso).filter isPhaseHeader =
      plan.phases.map (fun p => phaseHeaderLine p
        ((effectiveSelected (review.bind PlanReviewResult.selectedPhases)
          plan).contains p.number)) ∧
    (∀ p ∈ plan.phases,
      (effectiveSelected (review.bind PlanReviewResult.selectedPhases)
        plan).contains p.number = true →
      p.description ∈ planToMarkdown plan review nowIso ∧
      (∀ t ∈ p.tasks, taskLine t ∈ planToMarkdown plan review nowIso) ∧
      (∀ c ∈ p.successCriteria.automated,
        taskLine c ∈ planToMarkdown plan review nowIso) ∧
      (∀ c ∈ p.successCriteria.manual,
        taskLine c ∈ planToMarkdown plan review nowIso) ∧
      (∀ n, p.implementationNotes = some n →
        ("> **Implementation Note:** ".toList ++ n) ∈
          planToMarkdown plan review nowIso)) ∧
    (∀ p ∈ plan.phases,
      (effectiveSelected (review.bind PlanReviewResult.selectedPhases)
        plan).contains p.number = false →
      excludedStubLine ∈ planToMarkdown plan review nowIso) := by
  refine ⟨?_, ?_, ?_⟩
  · unfold planToMarkdown
    simp only [List.filter_append]
    rw [filterPH_titleSection, filterPH_statusSection,
      filterPH_overviewSection plan hov,
      filterPH_optTextSection "## Current State" plan.currentState
        phh_h2cs hcs,
      filterPH_optTextSection "## Desired End State" plan.desiredEndState
        phh_h2de hde,
      filterPH_outOfScopeSection,
      filterPH_phasesSection plan _ hph,
      filterPH_testingSection,
      filterPH_requirementsSection,
      filterPH_constraintsSection,
      filterPH_notesSection review hnt,
      filterPH_referencesSection,
      filterPH_footerSection]
    simp only [List.nil_append, List.append_nil]
  · intro p hp hsel
    refine ⟨?_, ?_, ?_, ?_, ?_⟩
    · exact mem_planToMarkdown_of_mem_block plan review nowIso p hp _
        (desc_mem_block _ p hsel)
    · intro t ht
      exact mem_planToMarkdown_of_mem_block plan review nowIso p hp _
        (task_mem_block _ p t hsel ht)
    · intro c hc
      exact mem_planToMarkdown_of_mem_block plan review nowIso p hp _
        (auto_mem_block _ p c hsel hc)
    · intro c hc
      exact mem_planToMarkdown_of_mem_block plan review nowIso p hp _
        (manual_mem_block _ p c hsel hc)
    · intro n hn
      exact mem_planToMarkdown_of_mem_block plan review nowIso p hp _
        (note_mem_block _ p n hsel hn)
  · intro p hp hsel
    exact mem_planToMarkdown_of_mem_block plan review nowIso p hp _
      (stub_mem_block _ p hsel)

/-- Witness for C3 on the two-phase sample plan with phase 1 selected:
the hypotheses hold and the rendered document has exactly the two phase
headers, the first included and the second excluded. -/
theorem c3_witness :
    isPhaseHeader samplePlan.overview = false ∧
    (∀ p ∈ samplePlan.phases, isPhaseHeader p.description = false) ∧
    (planToMarkdown samplePlan (some phase1Review)
      "2025-05-05".toList).filter isPhaseHeader =
      [phaseHeaderLine samplePhase1 true,
       phaseHeaderLine samplePhase2 false] := by
  have hph : ∀ p ∈ samplePlan.phases, isPhaseHeader p.description = false
    := by
    intro p hp
    simp [samplePlan] at hp
    rcases hp with rfl | rfl <;> rfl
  have h := c3_phase_blocks samplePlan (some phase1Review)
    "2025-05-05".toList rfl
    (fun s hs => Option.noConfusion hs)
    (fun s hs => Option.noConfusion hs)
    hph
    (by intro r hr; injection hr with h2; subst h2; rfl)
  refine ⟨rfl, hph, ?_⟩
  rw [h.1]
  rfl

/-- C8: the generator extraction tries the fenced block first, then the
outermost object span of the original text, and returns `none` instead of
throwing when neither parses; the three conjuncts are the three input
classes of the claim. -/
theorem c8_extraction_strategy (parse : Str → Option Json)
    (text cap span : Str) (v : Json) :
    (findFenced text = some cap → parse (trimWs cap) = some v →
      extractPlanJson parse text = some v) ∧
    (findFenced text = none → parse (trimWs text) = none →
      findObjSpan text = some span → parse span = some v →
      extractPlanJson parse text = some v) ∧
    (parse (trimWs (match findFenced text with
        | some c => c
        | none => text)) = none →
      (findObjSpan text).bind parse = none →
      extractPlanJson parse text = none) := by
  refine ⟨?_, ?_, ?_⟩
  · intro h1 h2
    simp [extractPlanJson, h1, h2]
  · intro h1 h2 h3 h4
    simp [extractPlanJson, h1, h2, h3, h4]
  · intro h1 h2
    cases hf : findFenced text with
    | some c =>
        simp only [hf] at h1
        cases ho : findObjSpan text with
        | some sp =>
            have h2b : parse sp = none := by rw [ho] at h2; exact h2
            simp [extractPlanJson, hf, h1, ho, h2b]
        | none => simp [extractPlanJson, hf, h1, ho]
    | none =>
        simp only [hf] at h1
        cases ho : findObjSpan text with
        | some sp =>
            have h2b : parse sp = none := by rw [ho] at h2; exact h2
            simp [extractPlanJson, hf, h1, ho, h2b]
        | none => simp [extractPlanJson, hf, h1, ho]

/-- Witness for C8 on the three concrete input classes: a fenced response,
a bare-span response, and a response with no structured content. -/
theorem c8_witness :
    findFenced fencedText = some (payloadText ++ " ".toList) ∧
    sampleParse (trimWs (payloadText ++ " ".toList)) = some sampleJson ∧
    extractPlanJson sampleParse fencedText = some sampleJson ∧
    findFenced bareText = none ∧
    findObjSpan bareText = some payloadText ∧
    extractPlanJson sampleParse bareText = some sampleJson ∧
    extractPlanJson sampleParse noJsonText = none := by
  have hA := (c8_extraction_strategy sampleParse fencedText
    (payloadText ++ " ".toList) [] sampleJson).1
  have hB := (c8_extraction_strategy sampleParse bareText [] payloadText
    sampleJson).2.1
  have hC := (c8_extraction_strategy sampleParse noJsonText [] []
    sampleJson).2.2
  exact ⟨rfl, rfl, hA rfl rfl, rfl, rfl, hB rfl rfl rfl rfl, hC rfl rfl⟩

/-- C9: an artifact file is written if and only if the session resolves
with a Decision whose decision is approve or modify, and then exactly one
document is written, at a path that is the plan id followed by the
slugified title and the markdown extension; every character of the slug is
a lowercase letter, a digit, or a dash. -/
theorem c9_artifact_iff_approval (plan : ImplementationPlan)
    (planId nowIso : Str) (review : Option PlanReviewResult) :
    ((finishTyped plan planId nowIso review).2.length = 1 ↔
      ∃ r, review = some r ∧ (r.decision = DecisionKind.approve ∨
        r.decision = DecisionKind.modify)) ∧
    (∀ e ∈ (finishTyped plan planId nowIso review).2,
      e.1 = planId ++ "-".toList ++ slugify plan.title ++ ".md".toList) ∧
    (∀ c ∈ slugify plan.title, isSlugChar c = true) := by
  refine ⟨?_, ?_, ?_⟩
  · cases review with
    | none =>
        refine iff_of_false (by simp [finishTyped]) ?_
        rintro ⟨r, hr, _⟩
        exact Option.noConfusion hr
    | some r =>
        cases hd : r.decision with
        | approve =>
            exact iff_of_true (by simp [finishTyped, hd])
              ⟨r, rfl, Or.inl hd⟩
        | modify =>
            exact iff_of_true (by simp [finishTyped, hd])
              ⟨r, rfl, Or.inr hd⟩
        | reject =>
            refine iff_of_false (by simp [finishTyped, hd]) ?_
            rintro ⟨r2, hr2, hdec⟩
            injection hr2 with h2
            subst h2
            rw [hd] at hdec
            rcases hdec with h | h <;> exact DecisionKind.noConfusion h
  · intro e he
    cases review with
    | none => simp [finishTyped] at he
    | some r =>
        by_cases hd : r.decision = DecisionKind.reject
        · simp [finishTyped, hd] at he
        · simp [finishTyped, hd] at he
          rw [he]
          rfl
  · intro c hc
    unfold slugify at hc
    exact (List.mem_filter.mp hc).2

/-- Witness for C9: the sample approval writes exactly one artifact and
the sample title slugifies to lowercase words joined by dashes. -/
theorem c9_witness :
    (finishTyped samplePlan "2025-01-02-030405".toList "2025".toList
      (some sampleReview)).2.length = 1 ∧
    slugify samplePlan.title = "add-rate-limiting".toList := by
  constructor
  · exact (c9_artifact_iff_approval samplePlan "2025-01-02-030405".toList
      "2025".toList (some sampleReview)).1.mpr
      ⟨sampleReview, rfl, Or.inl rfl⟩
  · rfl

/-- C10 counterexample: the body `false` parses, its decision field is
absent (hence not the string reject), yet `finish` takes the rejection
branch and writes no artifact, because JavaScript falsiness of the parsed
value is tested first — not only `null` resolves as a rejection. -/
theorem c10_counterexample_falsy_payload :
    getField (Json.bool false) "decision".toList = none ∧
    isRejectDecision (Json.bool false) = false ∧
    truthy (Json.bool false) = false ∧
    finishJsonWrites samplePlan "2025-01-02-030405".toList
      (Json.bool false) = [] :=
  ⟨rfl, rfl, rfl, rfl⟩

/-- C10 amended: the submit endpoint performs no shape validation beyond
JSON parsing — any parsed body is acknowledged and passed to the
resolution callback as-is; a truthy payload whose decision field is not
the string reject causes the artifact write, while null and every other
falsy payload (false, 0, the empty string) resolves the session as a
rejection with no artifact. -/
theorem c10_no_shape_validation :
    (∀ v : Json, handleSubmitPost (some v) =
      [SrvAction.clearTimer, SrvAction.respond 200 RespBody.success,
       SrvAction.delayedSubmit graceDelayMs v]) ∧
    (∀ (plan : ImplementationPlan) (planId : Str) (v : Json),
      truthy v = true → isRejectDecision v = false →
      finishJsonWrites plan planId v =
        [artifactFilename planId plan.title]) ∧
    (∀ (plan : ImplementationPlan) (planId : Str) (v : Json),
      truthy v = false → finishJsonWrites plan planId v = []) ∧
    (∀ (plan : ImplementationPlan) (planId : Str),
      finishJsonWrites plan planId Json.null = []) := by
  refine ⟨fun v => rfl, ?_, ?_, fun plan planId => rfl⟩
  · intro plan planId v h1 h2
    simp [finishJsonWrites, h1, h2]
  · intro plan planId v h1
    simp [finishJsonWrites, h1]

/-- Witness for C10: a truthy object body with decision approve causes
the artifact write. -/
theorem c10_witness :
    truthy approveJson = true ∧
    isRejectDecision approveJson = false ∧
    finishJsonWrites samplePlan "2025-06-07-080910".toList approveJson =
      [artifactFilename "2025-06-07-080910".toList samplePlan.title] := by
  refine ⟨rfl, rfl, ?_⟩
  exact c10_no_shape_validation.2.1 samplePlan "2025-06-07-080910".toList
    approveJson rfl rfl
